import Mathlib

set_option maxHeartbeats 1000000

/-!
Shallow embedding of the ensemble distribution-distillation repository.

The Python sources are translated as follows: tensors and numpy arrays
become (nested) lists over `ℚ` or `ℝ`; stateful objects become explicit
state records; functions that may raise become `Except`-valued; HDF5
group/dataset layouts become symbolic traces of the names accessed.
-/

/-! ## HDF5 layout (reader `Cifar10Data.__init__`, writers `ensemble_predictions`
and `predictions_dirichlet`) -/

/-- Group opened by `Cifar10Data.__init__` in `ensemble_predictions.h5`:
`f["train"]` when `train=True`, `f["test"]` otherwise. -/
def cifar10ReadGroup (train : Bool) : String :=
  if train then "train" else "test"

/-- Datasets read by `Cifar10Data.__init__` from the opened group, in source order. -/
def cifar10ReadDatasets : List String :=
  ["data", "predictions", "logits", "targets"]

/-- Groups (with their datasets, in creation order) created by `ensemble_predictions`:
the loop runs over `labels = ["test", "train"]` and creates the four datasets per group. -/
def ensemblePredictionsWrites : List (String × List String) :=
  ["test", "train"].map (fun label => (label, ["data", "logits", "predictions", "targets"]))

/-- Groups (with their datasets, in creation order) created by `predictions_dirichlet`:
the loop runs over `labels = ["test", "train"]` and creates five datasets per group. -/
def predictionsDirichletWrites : List (String × List String) :=
  ["test", "train"].map (fun label =>
    (label, ["data", "predictions", "teacher-predictions", "targets", "alpha"]))

/-! ## Ensemble container (`src/ensemble/ensemble.py`) -/

/-- State of an `Ensemble` object: the member list, the tracked `size`, and
`output_size`. `M` abstracts the member objects. -/
structure EnsembleState (M : Type) where
  members : List M
  size : Nat
  output_size : Nat
deriving Repr, DecidableEq

/-- Translation of `Ensemble.__init__`: empty member list, `size = 0`. -/
def Ensemble.init (M : Type) (output_size : Nat) : EnsembleState M :=
  { members := [], size := 0, output_size := output_size }

/-- Translation of `Ensemble.add_member`. The Python condition is
`issubclass(type(new_member), EnsembleMember) or True`; the subclass test is
abstracted as the boolean `isSub`. The `else` branch raises `ValueError`. -/
def add_member {M : Type} (isSub : M → Bool) (e : EnsembleState M) (new_member : M) :
    Except String (EnsembleState M) :=
  if isSub new_member || true then
    Except.ok { e with members := e.members ++ [new_member], size := e.size + 1 }
  else
    Except.error "Ensemble member must be an EnsembleMember subclass"

/-- Translation of `Ensemble.add_multiple`: `number_of` calls of `add_member`
on freshly constructed members. -/
def add_multiple {M : Type} (isSub : M → Bool) (e : EnsembleState M) (number_of : Nat)
    (constructor : Unit → M) : Except String (EnsembleState M) :=
  (List.range number_of).foldlM (fun st _ => add_member isSub st (constructor ())) e

/-- Loop body of `Ensemble.load_ensemble`: iterate over the checkpoint entries
with index `i`, breaking when `num_members is not None and i == num_members`,
otherwise adding the member. -/
def load_ensemble_loop {M : Type} (isSub : M → Bool) :
    List M → Nat → Option Nat → EnsembleState M → Except String (EnsembleState M)
  | [], _, _, e => Except.ok e
  | m :: rest, i, num_members, e =>
    if num_members = some i then Except.ok e
    else
      match add_member isSub e m with
      | Except.ok e2 => load_ensemble_loop isSub rest (i + 1) num_members e2
      | Except.error s => Except.error s

/-- Translation of `Ensemble.load_ensemble` (the checkpoint dict becomes the
ordered list of its values). -/
def load_ensemble {M : Type} (isSub : M → Bool) (e : EnsembleState M) (check_point : List M)
    (num_members : Option Nat) : Except String (EnsembleState M) :=
  load_ensemble_loop isSub check_point 0 num_members e

/-- Observable events of `Ensemble.train`: the per-member log line
`"Training member ind+1/size"` and the `member.train(...)` call. -/
inductive TrainEvent (M : Type) where
  | logMsg (memberIndex ensembleSize : Nat)
  | trainCall (member : M)
deriving DecidableEq

/-- Translation of `Ensemble.train`: a single loop over `enumerate(self.members)`
that logs and then calls `member.train`, threading an abstract training state
`σ` (the member training effect is `memberTrain`). Returns the final state and
the event trace in execution order. -/
def ensemble_train {M σ : Type} (memberTrain : M → σ → σ) (e : EnsembleState M) (s : σ) :
    σ × List (TrainEvent M) :=
  (e.members.enum).foldl
    (fun acc im =>
      (memberTrain im.2 acc.1,
       acc.2 ++ [TrainEvent.logMsg (im.1 + 1) e.size, TrainEvent.trainCall im.2]))
    (s, [])

/-- Attribute state built by `EnsembleMember.__init__` that the claim observes. -/
structure MemberState (L : Type) where
  output_size : Nat
  loss : Option L
deriving Repr, DecidableEq

/-- Translation of `EnsembleMember.__init__`: assign the attributes, then raise
`ValueError` when `self.loss is None`. -/
def ensembleMember_init {L : Type} (output_size : Nat) (loss_function : Option L) :
    Except String (MemberState L) :=
  let state : MemberState L := { output_size := output_size, loss := loss_function }
  if state.loss.isNone then
    Except.error "Must assign proper loss function to child.loss."
  else
    Except.ok state

/-- Member-indexed slice assignment shared by `Ensemble.get_logits` and
`Ensemble.predict`: allocate a zero tensor and assign `t[:, i, :] = vals[i]`
for each member index `i` in order. The tensor `(B, N, K)` is modelled as a
function of `(batch, member, component)` indices. -/
def fillMemberSlices (vals : List (Nat → Nat → ℚ)) : Nat → Nat → Nat → ℚ :=
  vals.enum.foldl (fun t iv => fun b n k => if n = iv.1 then iv.2 b k else t b n k)
    (fun _ _ _ => 0)

/-- Translation of `Ensemble.get_logits`: zero tensor of shape
`(B, self.size, self.output_size)`, slice `i` overwritten with
`member_i.forward(inputs)`. -/
def get_logits {M I : Type} (memberForward : M → I → Nat → Nat → ℚ) (e : EnsembleState M)
    (inputs : I) : Nat → Nat → Nat → ℚ :=
  fillMemberSlices (e.members.map (fun m => memberForward m inputs))

/-- Translation of `Ensemble.predict`: as `get_logits` but slice `i` is
`member_i.predict(inputs)` when `t is None`, else `member_i.predict(inputs, t)`. -/
def ensemble_predict {M I T : Type} (memberPredict : M → I → Option T → Nat → Nat → ℚ)
    (e : EnsembleState M) (inputs : I) (t : Option T) : Nat → Nat → Nat → ℚ :=
  fillMemberSlices (e.members.map (fun m =>
    match t with
    | none => memberPredict m inputs none
    | some tv => memberPredict m inputs (some tv)))

/-- Size invariant relating the tracked `size` counter to the member list. -/
def sizeInv {M : Type} (e : EnsembleState M) : Prop :=
  e.size = e.members.length

/-! ## UCI data loader (`src/dataloaders/uci/uci_base.py`) -/

/-- Translation of `UCIData._validate_file_path`. The filesystem is abstracted
by `pathExists`; `Path.expanduser` by `expanduser`. The function logs
"Dataset does not exist" when the expanded path does not exist and returns the
expanded path in every case; the `Except` layer records that no exception is
raised. The result carries the returned path and the emitted log messages. -/
def validate_file_path (expanduser : String → String) (pathExists : String → Bool)
    (file_path : String) : Except String (String × List String) :=
  let fp := expanduser file_path
  let logs := if pathExists fp then ([] : List String) else ["Dataset does not exist"]
  Except.ok (fp, logs)

/-- Columnwise arithmetic mean over the rows of a matrix (`np.mean(..., axis=0)`
evaluated at column `c`; also the per-class mean over ensemble members in
`np.mean(predictions, axis=1)` for one batch element). -/
def npColMean (rows : List (List ℚ)) (c : Nat) : ℚ :=
  ((rows.map (fun r => r.getD c 0)).sum) / (rows.length : ℚ)

/-- Translation of `np.mean(predictions, axis=1)` on a `(B, N, C)` array:
for each batch element, the per-class mean over the `N` member rows. -/
def npMeanAxis1 (p : List (List (List ℚ))) : List (List ℚ) :=
  p.map (fun rows => (List.range ((rows.headD []).length)).map (fun c => npColMean rows c))

/-- Running-maximum recursion behind `np.argmax` on a vector: carry the index
and value of the current best, replacing it only on a strictly larger value
(so the first occurrence of the maximum wins). -/
def npArgmaxAux : List ℚ → Nat → Nat × ℚ → Nat × ℚ
  | [], _, best => best
  | x :: xs, i, best => npArgmaxAux xs (i + 1) (if best.2 < x then (i, x) else best)

/-- Index/value pair of the first maximum of a vector (`(0, 0)` on the empty
vector, where `np.argmax` would raise). -/
def npArgmaxPair : List ℚ → Nat × ℚ
  | [] => (0, 0)
  | x :: xs => npArgmaxAux xs 1 (0, x)

/-- Translation of `np.argmax` on a vector (axis `-1` of a matrix is handled
by mapping over rows). -/
def npArgmax (xs : List ℚ) : Nat :=
  (npArgmaxPair xs).1

/-- The aggregated class prediction `np.argmax(np.mean(predictions, axis=1), axis=-1)`
computed identically in `Cifar10Data.__init__`, `ensemble_predictions` and
`predictions_dirichlet`. -/
def ensemble_predicted_class (p : List (List (List ℚ))) : List Nat :=
  (npMeanAxis1 p).map npArgmax

/-- Translation of `np.mean(preds == targets)`: mean of the elementwise
equality indicator. -/
def npMeanEqual (xs ys : List Nat) : ℚ :=
  ((List.zipWith (fun a b => if a = b then (1 : ℚ) else 0) xs ys).sum) / (xs.length : ℚ)

/-- The reported ensemble accuracy
`np.mean(np.argmax(np.mean(predictions, axis=1), axis=-1) == targets)`. -/
def ensemble_accuracy (p : List (List (List ℚ))) (targets : List Nat) : ℚ :=
  npMeanEqual (ensemble_predicted_class p) targets

/-! ## Loss functions (`src/loss.py`) -/

/-- Translation of `torch.Tensor.var(dim=0)` on one column: unbiased sample
variance (division by `n - 1`, subtracting the sample mean). -/
noncomputable def torchVarUnbiased (xs : List ℝ) : ℝ :=
  ((xs.map (fun x => (x - xs.sum / (xs.length : ℝ)) ^ 2)).sum) / ((xs.length : ℝ) - 1)

/-- Translation of `gaussian_neg_log_likelihood_diag` (src/loss.py lines 68-91):
`prec = sigma_sq.pow(-1)`; per batch element `b`,
`sample_var = (target_b - mu_b).var(dim=0)`,
`trace_term = (prec_b * sample_var).sum() * N / 2`, and the accumulated value is
`trace_term - N / 2 * prec_b.prod()`; the sum is divided by `B`. -/
noncomputable def gaussian_neg_log_likelihood_diag (mu sigma_sq : List (List ℝ))
    (target : List (List (List ℝ))) : ℝ :=
  let B := target.length
  let N := (target.headD []).length
  let prec := sigma_sq.map (fun row => row.map (fun s => s⁻¹))
  let contribs := (List.zip mu (List.zip prec target)).map (fun z =>
    let mu_b := z.1
    let prec_b := z.2.1
    let target_b := z.2.2
    let residuals := target_b.map (fun t_n => List.zipWith (fun t m => t - m) t_n mu_b)
    let sample_var := (List.range ((residuals.headD []).length)).map
      (fun d => torchVarUnbiased (residuals.map (fun r => r.getD d 0)))
    (List.zipWith (fun a b => a * b) prec_b sample_var).sum * (N : ℝ) / 2
      - (N : ℝ) / 2 * prec_b.prod)
  contribs.sum / (B : ℝ)

/-- Log density of a multivariate normal with diagonal covariance, as computed
by `torch.distributions.MultivariateNormal(mean_b, torch.diag(cov_b)).log_prob`:
the log determinant splits over the diagonal. -/
noncomputable def diagMvnLogProb (mean_b cov_b x : List ℝ) : ℝ :=
  ((List.zip mean_b (List.zip cov_b x)).map (fun z =>
    -(1 / 2) * Real.log (2 * Real.pi * z.2.1) - (z.2.2 - z.1) ^ 2 / (2 * z.2.1))).sum

/-- Translation of `gaussian_neg_log_likelihood` (src/loss.py lines 43-65):
for each batch element the exact multivariate-normal log probability of the `N`
targets is averaged and `loss -= mean(log_prob) / B` accumulated. -/
noncomputable def gaussian_neg_log_likelihood (mu sigma_sq : List (List ℝ))
    (target : List (List (List ℝ))) : ℝ :=
  let B := target.length
  ((List.zip mu (List.zip sigma_sq target)).map (fun z =>
    -(((z.2.2.map (fun t_n => diagMvnLogProb z.1 z.2.1 t_n)).sum) / ((z.2.2.length : ℝ)))
      / (B : ℝ))).sum

/-! ## UCI datasplit standardization (`UCIData.datasplit_generator`, `get_stats`) -/

/-- Mean of a real vector (`np.mean`). -/
noncomputable def npMeanR (xs : List ℝ) : ℝ :=
  xs.sum / (xs.length : ℝ)

/-- Population variance of a real vector (`np.var`, `ddof=0`). -/
noncomputable def npVarR (xs : List ℝ) : ℝ :=
  ((xs.map (fun x => (x - npMeanR xs) ^ 2)).sum) / (xs.length : ℝ)

/-- Column `d` of a matrix stored as a list of rows. -/
def colOf (data : List (List ℝ)) (d : Nat) : List ℝ :=
  data.map (fun r => r.getD d 0)

/-- Translation of `get_stats`: `data.mean(axis=0), data.var(axis=0)**0.5`,
columnwise over the width of the first row. -/
noncomputable def get_stats (data : List (List ℝ)) : List ℝ × List ℝ :=
  ((List.range ((data.headD []).length)).map (fun d => npMeanR (colOf data d)),
   (List.range ((data.headD []).length)).map (fun d => Real.sqrt (npVarR (colOf data d))))

/-- Columnwise standardization of one row: `(row - mean) / std` with numpy
broadcasting over columns. -/
noncomputable def standardizeRow (mean std row : List ℝ) : List ℝ :=
  (List.range row.length).map (fun d => (row.getD d 0 - mean.getD d 0) / std.getD d 0)

/-- Columnwise standardization of a matrix: `(data - mean) / std`. -/
noncomputable def standardize (mean std : List ℝ) (data : List (List ℝ)) : List (List ℝ) :=
  data.map (fun row => standardizeRow mean std row)

/-- Row selection `data[idx, :]` by a list of row indices. -/
def selectRows (data : List (List ℝ)) (idx : List Nat) : List (List ℝ) :=
  idx.map (fun i => data.getD i [])

/-- Column slice `rows[:, :input_dim]` (the x part of the UCI data). -/
def xPart (input_dim : Nat) (rows : List (List ℝ)) : List (List ℝ) :=
  rows.map (fun r => r.take input_dim)

/-- Column slice `rows[:, input_dim:]` (the y part of the UCI data). -/
def yPart (input_dim : Nat) (rows : List (List ℝ)) : List (List ℝ) :=
  rows.map (fun r => r.drop input_dim)

/-- Translation of one iteration of `UCIData.datasplit_generator`: slice the
train and test rows by the fold's index lists, compute `get_stats` on the
training x and y only, and standardize all four pieces with those statistics.
Returns `((x_train, y_train), (x_test, y_test))` after standardization. -/
noncomputable def datasplit_fold (data : List (List ℝ)) (input_dim : Nat)
    (train_idx test_idx : List Nat) :
    (List (List ℝ) × List (List ℝ)) × (List (List ℝ) × List (List ℝ)) :=
  let x_train := xPart input_dim (selectRows data train_idx)
  let y_train := yPart input_dim (selectRows data train_idx)
  let xs := get_stats x_train
  let ys := get_stats y_train
  let x_test := xPart input_dim (selectRows data test_idx)
  let y_test := yPart input_dim (selectRows data test_idx)
  ((standardize xs.1 xs.2 x_train, standardize ys.1 ys.2 y_train),
   (standardize xs.1 xs.2 x_test, standardize ys.1 ys.2 y_test))

/-- The standardization statistics a fold derives from its training rows only. -/
noncomputable def trainStats (data : List (List ℝ)) (input_dim : Nat) (train_idx : List Nat) :
    (List ℝ × List ℝ) × (List ℝ × List ℝ) :=
  (get_stats (xPart input_dim (selectRows data train_idx)),
   get_stats (yPart input_dim (selectRows data train_idx)))

/-! ## Distilled subnet constructor (`src/distilled/logits_prob_dist_subnet.py`) -/

/-- One observable step of `LogitsProbabilityDistributionSubNet.__init__` on the
instance attribute dictionary: an attribute assignment `self.a = ...` or an
attribute read `self.a` (which raises `AttributeError` when `a` is undefined). -/
inductive InitStep where
  | assign (attr : String)
  | readAttr (attr : String)
deriving Repr, DecidableEq

/-- Run a sequence of attribute steps over the list of currently defined
instance attributes; a read of an undefined attribute raises `AttributeError`
carrying the attribute name. -/
def runInitSteps : List String → List InitStep → Except String (List String)
  | attrs, [] => Except.ok attrs
  | attrs, InitStep.assign a :: rest => runInitSteps (attrs ++ [a]) rest
  | attrs, InitStep.readAttr a :: rest =>
    if a ∈ attrs then runInitSteps attrs rest else Except.error a

/-- Attribute-access trace of `LogitsProbabilityDistributionSubNet.__init__`
after `super().__init__` returns, read off the source line by line:
the three assignments; `len(layer_sizes_1) - 1` reads of `self.layers` from
`self.layers.append(...)` (the code appends to `self.layers`, not
`self.layers_1`); the assignment of `layers_2` and the second loop; the
`variance_lower_bound` assignment and its read in the `if`; the reads of
`self.fc1a, self.fc2a, self.fc3a, self.fc2b, self.fc2b, self.fc3b` in the list
literal assigned to `self.layers`; and the optimizer/device accesses. -/
def subnetInitSteps (len1 len2 : Nat) : List InitStep :=
  [InitStep.assign "use_hard_labels", InitStep.assign "learning_rate",
   InitStep.assign "layers_1"]
  ++ (List.range (len1 - 1)).map (fun _ => InitStep.readAttr "layers")
  ++ [InitStep.assign "layers_2"]
  ++ (List.range (len2 - 1)).map (fun _ => InitStep.readAttr "layers")
  ++ [InitStep.assign "variance_lower_bound", InitStep.readAttr "variance_lower_bound",
      InitStep.readAttr "fc1a", InitStep.readAttr "fc2a", InitStep.readAttr "fc3a",
      InitStep.readAttr "fc2b", InitStep.readAttr "fc2b", InitStep.readAttr "fc3b",
      InitStep.assign "layers",
      InitStep.readAttr "learning_rate", InitStep.assign "optimizer",
      InitStep.readAttr "device"]

/-- Modelled from the spec: `DistilledNet.__init__` (the `DistilledNet` parent
class in `src/distilled/distilled_network.py` is not in the source tree). The
spec describes the `DistilledNet` family as holding a teacher, a loss function
and a device, mirroring `EnsembleMember.__init__`, so the parent constructor is
modelled as assigning these bookkeeping attributes; in particular it defines
neither `layers` nor any `fc..` attribute. -/
def distilledNetParentAttrs : List String :=
  ["output_size", "teacher", "loss", "metrics", "optimizer", "device"]

/-- Constructor of `LogitsProbabilityDistributionSubNet` for layer-size lists of
lengths `len1` and `len2`, starting from the attributes the parent constructor
defined. -/
def subnetInit (parentAttrs : List String) (len1 len2 : Nat) : Except String (List String) :=
  runInitSteps parentAttrs (subnetInitSteps len1 len2)

/-! ## Bundled claim conclusions -/

/-- Conjunction of the size-invariant and slice properties of the ensemble
operations, for a fixed starting state `e`: every mutating operation succeeds
and preserves `sizeInv`, and `get_logits` / `predict` fill slice `n` with the
output of member `n` (slices beyond the members remain zero). -/
def ensembleOpsOK {M I T : Type} (isSub : M → Bool) (fwd : M → I → Nat → Nat → ℚ)
    (mpred : M → I → Option T → Nat → Nat → ℚ) (e : EnsembleState M) : Prop :=
  (∀ m, ∃ e2, add_member isSub e m = Except.ok e2 ∧ sizeInv e2) ∧
  (∀ n ctor, ∃ e2, add_multiple isSub e n ctor = Except.ok e2 ∧ sizeInv e2) ∧
  (∀ cp num, ∃ e2, load_ensemble isSub e cp num = Except.ok e2 ∧ sizeInv e2) ∧
  (∀ inputs n b k, ∀ hn : n < e.members.length,
    n < e.size ∧ get_logits fwd e inputs b n k = fwd (e.members.get ⟨n, hn⟩) inputs b k) ∧
  (∀ inputs n b k, e.members.length ≤ n → get_logits fwd e inputs b n k = 0) ∧
  (∀ inputs t n b k, ∀ hn : n < e.members.length,
    ensemble_predict mpred e inputs t b n k = mpred (e.members.get ⟨n, hn⟩) inputs t b k)

/-- Conjunction stating that the aggregated class prediction maximizes the
member-mean probability and that the reported accuracy is the matching
fraction, for a `(B, N, C)` prediction array `p` and `B` targets. -/
def aggregationSpec (p : List (List (List ℚ))) (targets : List Nat) (B C : Nat) : Prop :=
  (∀ b, b < B →
    (ensemble_predicted_class p).getD b 0 < C ∧
    ∀ c, c < C →
      npColMean (p.getD b []) c ≤ npColMean (p.getD b []) ((ensemble_predicted_class p).getD b 0)) ∧
  ensemble_accuracy p targets =
    (((List.zip (ensemble_predicted_class p) targets).countP (fun z => decide (z.1 = z.2)) : ℚ))
      / (B : ℚ)

/-- Conjunction stating that a datasplit fold standardizes both its train and
test slices with the statistics of its own training slice, and that those
statistics (hence the transformation applied to test data) are unchanged when
the dataset is replaced by one agreeing on the fold's training rows. -/
def foldUsesTrainStats (data data2 : List (List ℝ)) (input_dim : Nat)
    (tr te te2 : List Nat) : Prop :=
  ((datasplit_fold data input_dim tr te).2.1 =
     standardize (trainStats data input_dim tr).1.1 (trainStats data input_dim tr).1.2
       (xPart input_dim (selectRows data te))) ∧
  ((datasplit_fold data input_dim tr te).2.2 =
     standardize (trainStats data input_dim tr).2.1 (trainStats data input_dim tr).2.2
       (yPart input_dim (selectRows data te))) ∧
  ((datasplit_fold data input_dim tr te).1.1 =
     standardize (trainStats data input_dim tr).1.1 (trainStats data input_dim tr).1.2
       (xPart input_dim (selectRows data tr))) ∧
  ((datasplit_fold data input_dim tr te).1.2 =
     standardize (trainStats data input_dim tr).2.1 (trainStats data input_dim tr).2.2
       (yPart input_dim (selectRows data tr))) ∧
  (trainStats data2 input_dim tr = trainStats data input_dim tr) ∧
  ((datasplit_fold data2 input_dim tr te2).2.1 =
     standardize (trainStats data input_dim tr).1.1 (trainStats data input_dim tr).1.2
       (xPart input_dim (selectRows data2 te2)))

/-! ## Theorems -/

theorem enumFrom_foldl_train {M σ : Type} (f : M → σ → σ) (size : Nat) :
    ∀ (ms : List M) (n : Nat) (s : σ) (acc : List (TrainEvent M)),
    (List.enumFrom n ms).foldl
      (fun acc2 im =>
        (f im.2 acc2.1, acc2.2 ++ [TrainEvent.logMsg (im.1 + 1) size, TrainEvent.trainCall im.2]))
      (s, acc)
    = (ms.foldl (fun st m => f m st) s,
       acc ++ (List.enumFrom n ms).flatMap
         (fun im => [TrainEvent.logMsg (im.1 + 1) size, TrainEvent.trainCall im.2])) := by
  intro ms
  induction ms with
  | nil => intro n s acc; simp [List.enumFrom]
  | cons m ms ih =>
    intro n s acc
    simp only [List.enumFrom, List.foldl_cons, List.flatMap_cons]
    rw [ih]
    simp [List.append_assoc]

theorem flatMap_filterMap_train {M : Type} (size : Nat) :
    ∀ (l : List (Nat × M)),
    ((l.flatMap fun im => [TrainEvent.logMsg (im.1 + 1) size, TrainEvent.trainCall im.2]).filterMap
      (fun ev => match ev with
        | TrainEvent.trainCall m => some m
        | TrainEvent.logMsg _ _ => none)) = l.map Prod.snd := by
  intro l
  induction l with
  | nil => rfl
  | cons p l ih => simp [List.flatMap_cons, List.filterMap_append, List.filterMap_cons, ih]

/-- Claim C6: `Ensemble.train` is strictly sequential. The final training state
is the fold of the member training effects over the members in insertion order,
the event trace is exactly the flattened per-member `[log, train]` blocks in
that order (so no two member trainings interleave), and the projection of the
trace onto `member.train` calls is exactly the member list: each member is
trained exactly once, `m_1` first and `m_n` last. -/
theorem ensemble_train_sequential {M σ : Type} (f : M → σ → σ) (e : EnsembleState M) (s : σ) :
    (ensemble_train f e s).1 = e.members.foldl (fun st m => f m st) s ∧
    (ensemble_train f e s).2 =
      (e.members.enum).flatMap
        (fun im => [TrainEvent.logMsg (im.1 + 1) e.size, TrainEvent.trainCall im.2]) ∧
    ((ensemble_train f e s).2.filterMap
      (fun ev => match ev with
        | TrainEvent.trainCall m => some m
        | TrainEvent.logMsg _ _ => none)) = e.members := by
  have h := enumFrom_foldl_train f e.size e.members 0 s []
  refine ⟨?_, ?_, ?_⟩
  · simp [ensemble_train, List.enum, h]
  · simp [ensemble_train, List.enum, h]
  · simp only [ensemble_train, List.enum, h, List.nil_append]
    rw [flatMap_filterMap_train e.size (List.enumFrom 0 e.members)]
    exact List.enumFrom_map_snd 0 e.members

/-- Claim C2, counterexample: with the membership test reporting that the value
is not an `EnsembleMember` instance (`isSub = id` on `Bool`, member `false`),
`Ensemble.add_member` does not raise `ValueError` and does not leave the
ensemble unchanged: it appends the member and increments `size`, because the
Python condition is `issubclass(...) or True`. -/
theorem add_member_accepts_non_member :
    add_member (fun b => b) (Ensemble.init Bool 3) false =
      Except.ok { members := [false], size := 1, output_size := 3 } := rfl

/-- Claim C2, amended: for every `new_member`, of any type,
`Ensemble.add_member` appends it to `members` and increments `size` by exactly
one; the `ValueError` branch is unreachable because the subclass check is
disabled by `or True`. -/
theorem add_member_always_appends {M : Type} (isSub : M → Bool) (e : EnsembleState M) (m : M) :
    add_member isSub e m =
      Except.ok { e with members := e.members ++ [m], size := e.size + 1 } := by
  simp [add_member]

/-- Claim C1, counterexample: the group `"test"` created by
`predictions_dirichlet` contains the datasets
`data, predictions, teacher-predictions, targets, alpha`, and no group it
creates contains a dataset named `"logits"`, contradicting the claimed layout. -/
theorem predictions_dirichlet_no_logits_dataset :
    ("test", ["data", "predictions", "teacher-predictions", "targets", "alpha"])
      ∈ predictionsDirichletWrites ∧
    ∀ g ∈ predictionsDirichletWrites, "logits" ∉ g.2 := by decide

/-- Claim C1, amended: `Cifar10Data.__init__` opens exactly the group
`"train"` (when `train=True`) or `"test"` (otherwise) and reads exactly the
datasets `data, predictions, logits, targets`; `ensemble_predictions` creates
groups `"test"` and `"train"` each with datasets
`data, logits, predictions, targets`; `predictions_dirichlet` creates for each
of its `"test"`/`"train"` groups the datasets
`data, predictions, teacher-predictions, targets` plus `alpha` (the dataset
named `"logits"` in the claim is actually named `"teacher-predictions"`).
Moreover every dataset the reader reads exists in each writer group of
`ensemble_predictions`, and every group the reader can open is written. -/
theorem h5_layout_spec :
    (cifar10ReadGroup true = "train" ∧ cifar10ReadGroup false = "test") ∧
    cifar10ReadDatasets = ["data", "predictions", "logits", "targets"] ∧
    ensemblePredictionsWrites =
      [("test", ["data", "logits", "predictions", "targets"]),
       ("train", ["data", "logits", "predictions", "targets"])] ∧
    predictionsDirichletWrites =
      [("test", ["data", "predictions", "teacher-predictions", "targets", "alpha"]),
       ("train", ["data", "predictions", "teacher-predictions", "targets", "alpha"])] ∧
    (∀ t : Bool, cifar10ReadGroup t ∈ ensemblePredictionsWrites.map Prod.fst) ∧
    (∀ g ∈ ensemblePredictionsWrites, ∀ d ∈ cifar10ReadDatasets, d ∈ g.2) := by decide

/-- Claim C5: for every path, `UCIData._validate_file_path` returns the
user-expanded path normally; it logs the error message "Dataset does not exist"
exactly when the expanded path does not exist, and it never raises. -/
theorem validate_file_path_logs_and_returns (expand : String → String)
    (ex : String → Bool) (p : String) :
    validate_file_path expand ex p =
      Except.ok (expand p, if ex (expand p) then [] else ["Dataset does not exist"]) ∧
    (∀ msg, validate_file_path expand ex p ≠ Except.error msg) := by
  constructor
  · rfl
  · intro msg h
    simp [validate_file_path] at h

/-- Witness for claim C5 at a concrete missing path. -/
theorem validate_file_path_witness :
    validate_file_path (fun s => s) (fun _ => false) "data.csv" =
      Except.ok ("data.csv", ["Dataset does not exist"]) :=
  (validate_file_path_logs_and_returns (fun s => s) (fun _ => false) "data.csv").1

/-- Claim C7: `EnsembleMember.__init__` raises `ValueError` if and only if
the given `loss_function` is `None`; when it is not `None`, construction
completes and the instance's `loss` attribute equals the given function. -/
theorem member_init_valueerror_iff {L : Type} (o : Nat) :
    (ensembleMember_init (L := L) o none =
      Except.error "Must assign proper loss function to child.loss.") ∧
    (∀ f : L, ensembleMember_init o (some f) = Except.ok { output_size := o, loss := some f }) ∧
    (∀ lf : Option L, (∃ msg, ensembleMember_init o lf = Except.error msg) ↔ lf = none) := by
  refine ⟨rfl, fun f => rfl, ?_⟩
  intro lf
  cases lf <;> simp [ensembleMember_init]

/-- Witness for claim C7 at a concrete non-`None` loss function. -/
theorem member_init_witness :
    ensembleMember_init 4 (some 7) = Except.ok { output_size := 4, loss := some 7 } :=
  (member_init_valueerror_iff (L := Nat) 4).2.1 7

/-- Claim C8: for every pair of layer-size list lengths,
`LogitsProbabilityDistributionSubNet.__init__` raises `AttributeError` before
completing, provided the parent constructor defines neither `layers` nor
`fc1a`: a layer-size list of length at least 2 makes the loop read the
unassigned `self.layers`, and otherwise the list literal on line 41 reads the
never-defined `self.fc1a`. -/
theorem subnet_init_always_raises (parentAttrs : List String)
    (h1 : "layers" ∉ parentAttrs) (h2 : "fc1a" ∉ parentAttrs) (len1 len2 : Nat) :
    ∃ a, subnetInit parentAttrs len1 len2 = Except.error a ∧ (a = "layers" ∨ a = "fc1a") := by
  cases hl1 : len1 - 1 with
  | succ k =>
    refine ⟨"layers", ?_, Or.inl rfl⟩
    simp only [subnetInit, subnetInitSteps, hl1, List.range_succ_eq_map, List.map_cons,
      List.cons_append, List.append_assoc, List.nil_append]
    simp [runInitSteps, List.mem_append, h1]
  | zero =>
    cases hl2 : len2 - 1 with
    | succ k =>
      refine ⟨"layers", ?_, Or.inl rfl⟩
      simp only [subnetInit, subnetInitSteps, hl1, hl2, List.range_succ_eq_map, List.map_cons,
        List.range_zero, List.map_nil, List.cons_append, List.append_assoc, List.nil_append]
      simp [runInitSteps, List.mem_append, h1]
    | zero =>
      refine ⟨"fc1a", ?_, Or.inr rfl⟩
      simp only [subnetInit, subnetInitSteps, hl1, hl2, List.range_zero, List.map_nil,
        List.cons_append, List.append_assoc, List.nil_append]
      simp [runInitSteps, List.mem_append, h2]

/-- Witness for claim C8 at the spec-modelled parent attributes and
layer-size lists of length 3. -/
theorem subnet_init_witness :
    ("layers" ∉ distilledNetParentAttrs) ∧ ("fc1a" ∉ distilledNetParentAttrs) ∧
    ∃ a, subnetInit distilledNetParentAttrs 3 3 = Except.error a ∧
      (a = "layers" ∨ a = "fc1a") :=
  ⟨by decide, by decide,
   subnet_init_always_raises distilledNetParentAttrs (by decide) (by decide) 3 3⟩

theorem fillMemberSlices_concat (vals : List (Nat → Nat → ℚ)) (v : Nat → Nat → ℚ) :
    fillMemberSlices (vals ++ [v]) =
      fun b n k => if n = vals.length then v b k else fillMemberSlices vals b n k := by
  unfold fillMemberSlices
  rw [List.enum_append, List.foldl_append]
  simp only [List.enumFrom, List.foldl_cons, List.foldl_nil]

theorem getD_map_lt {α β : Type} (f : α → β) :
    ∀ (l : List α) (n : Nat) (d : β) (h : n < l.length), (l.map f).getD n d = f (l.get ⟨n, h⟩) := by
  intro l
  induction l with
  | nil => intro n d h; exact absurd h (by simp)
  | cons a l ih =>
    intro n d h
    cases n with
    | zero => rfl
    | succ m => exact ih m d (by simpa using h)

theorem getD_ge_length {α : Type} :
    ∀ (l : List α) (n : Nat) (d : α), l.length ≤ n → l.getD n d = d := by
  intro l
  induction l with
  | nil => intro n d _; cases n <;> rfl
  | cons a l ih =>
    intro n d h
    cases n with
    | zero => exact absurd h (by simp)
    | succ m => exact ih m d (by simpa using h)

theorem fillMemberSlices_eq :
    ∀ (vals : List (Nat → Nat → ℚ)) (b n k : Nat),
    fillMemberSlices vals b n k = (vals.getD n (fun _ _ => 0)) b k := by
  intro vals
  induction vals using List.reverseRecOn with
  | nil => intro b n k; cases n <;> rfl
  | append_singleton vals v ih =>
    intro b n k
    rw [fillMemberSlices_concat]
    by_cases hn : n = vals.length
    · subst hn
      simp [List.getD_append_right, le_refl]
    · simp only [if_neg hn, ih]
      rcases Nat.lt_or_ge n vals.length with hlt | hge
      · rw [List.getD_append _ _ _ _ hlt]
      · have hgt : vals.length < n := lt_of_le_of_ne hge (fun hc => hn hc.symm)
        rw [List.getD_append_right _ _ _ _ hgt.le, getD_ge_length, getD_ge_length]
        · simp only [List.length_cons, List.length_nil]
          omega
        · exact hge

theorem add_member_ok_inv {M : Type} (isSub : M → Bool) (e : EnsembleState M) (m : M)
    (h : sizeInv e) :
    ∃ e2, add_member isSub e m = Except.ok e2 ∧ sizeInv e2 := by
  refine ⟨{ e with members := e.members ++ [m], size := e.size + 1 }, by simp [add_member], ?_⟩
  simp [sizeInv] at h ⊢
  omega

theorem foldlM_add_member_inv {M α : Type} (isSub : M → Bool) (g : M) :
    ∀ (l : List α) (e : EnsembleState M), sizeInv e →
    ∃ e2, (l.foldlM (fun st _ => add_member isSub st g) e) = Except.ok e2 ∧ sizeInv e2 := by
  intro l
  induction l with
  | nil => intro e h; exact ⟨e, rfl, h⟩
  | cons a l ih =>
    intro e h
    obtain ⟨e1, he1, h1⟩ := add_member_ok_inv isSub e g h
    obtain ⟨e2, he2, h2⟩ := ih e1 h1
    refine ⟨e2, ?_, h2⟩
    simp only [List.foldlM_cons, he1]
    simpa using he2

theorem load_loop_ok_inv {M : Type} (isSub : M → Bool) :
    ∀ (cp : List M) (i : Nat) (num : Option Nat) (e : EnsembleState M), sizeInv e →
    ∃ e2, load_ensemble_loop isSub cp i num e = Except.ok e2 ∧ sizeInv e2 := by
  intro cp
  induction cp with
  | nil => intro i num e h; exact ⟨e, rfl, h⟩
  | cons m cp ih =>
    intro i num e h
    obtain ⟨e1, he1, h1⟩ := add_member_ok_inv isSub e m h
    by_cases hb : num = some i
    · exact ⟨e, by simp [load_ensemble_loop, hb], h⟩
    · obtain ⟨e2, he2, h2⟩ := ih (i + 1) num e1 h1
      refine ⟨e2, ?_, h2⟩
      simp [load_ensemble_loop, hb, he1, he2]

/-- Claim C9: `size == len(members)` holds after `Ensemble.__init__` and is
preserved by `add_member`, `add_multiple` and `load_ensemble` (which all
succeed); under the invariant, `get_logits` and `predict` return tensors whose
slice at member index `i` is produced by member `i`, member slices beyond the
members stay zero, and every member index below `len(members)` is inside the
allocated `size` dimension. -/
theorem ensemble_size_invariant {M I T : Type} (isSub : M → Bool)
    (fwd : M → I → Nat → Nat → ℚ) (mpred : M → I → Option T → Nat → Nat → ℚ)
    (o : Nat) (e : EnsembleState M) (h : sizeInv e) :
    sizeInv (Ensemble.init M o) ∧ ensembleOpsOK isSub fwd mpred e := by
  refine ⟨rfl, ?_, ?_, ?_, ?_, ?_, ?_⟩
  · intro m
    exact add_member_ok_inv isSub e m h
  · intro n ctor
    exact foldlM_add_member_inv isSub (ctor ()) (List.range n) e h
  · intro cp num
    exact load_loop_ok_inv isSub cp 0 num e h
  · intro inputs n b k hn
    refine ⟨by simpa [sizeInv] using h ▸ hn, ?_⟩
    rw [get_logits, fillMemberSlices_eq, getD_map_lt _ _ _ _ hn]
  · intro inputs n b k hge
    rw [get_logits, fillMemberSlices_eq, getD_ge_length]
    simpa using hge
  · intro inputs t n b k hn
    cases t with
    | none => rw [ensemble_predict, fillMemberSlices_eq, getD_map_lt _ _ _ _ hn]
    | some tv => rw [ensemble_predict, fillMemberSlices_eq, getD_map_lt _ _ _ _ hn]

/-- Witness for claim C9 at a concrete one-member ensemble over `Nat`. -/
theorem ensemble_size_invariant_witness :
    sizeInv (Ensemble.init Nat 10) ∧
    ensembleOpsOK (M := Nat) (I := Nat) (T := Nat) (fun _ => true)
      (fun _ _ _ _ => 0) (fun _ _ _ _ _ => 0)
      { members := [7], size := 1, output_size := 10 } :=
  ensemble_size_invariant (fun _ => true) (fun _ _ _ _ => 0) (fun _ _ _ _ _ => 0) 10
    { members := [7], size := 1, output_size := 10 } rfl

theorem npArgmaxAux_spec :
    ∀ (xs : List ℚ) (i : Nat) (best : Nat × ℚ),
    (npArgmaxAux xs i best = best ∨
      ∃ k, k < xs.length ∧ npArgmaxAux xs i best = (i + k, xs.getD k 0)) ∧
    best.2 ≤ (npArgmaxAux xs i best).2 ∧
    (∀ k, k < xs.length → xs.getD k 0 ≤ (npArgmaxAux xs i best).2) := by
  intro xs
  induction xs with
  | nil =>
    intro i best
    refine ⟨Or.inl rfl, le_refl _, ?_⟩
    intro k hk
    simp at hk
  | cons x xs ih =>
    intro i best
    simp only [npArgmaxAux]
    obtain ⟨hpos, hacc, hall⟩ := ih (i + 1) (if best.2 < x then (i, x) else best)
    have hb2 : best.2 ≤ (if best.2 < x then (i, x) else best).2 := by
      by_cases hlt : best.2 < x
      · simp [hlt, le_of_lt hlt]
      · simp [hlt]
    have hx2 : x ≤ (if best.2 < x then (i, x) else best).2 := by
      by_cases hlt : best.2 < x
      · simp [hlt]
      · simp [hlt]
        exact le_of_not_lt hlt
    refine ⟨?_, le_trans hb2 hacc, ?_⟩
    · rcases hpos with heq | ⟨k, hk, heq⟩
      · by_cases hlt : best.2 < x
        · right
          refine ⟨0, by simp, ?_⟩
          rw [heq]
          simp [hlt]
        · left
          rw [heq]
          simp [hlt]
      · right
        refine ⟨k + 1, by simpa using hk, ?_⟩
        rw [heq]
        simp [List.getD_cons_succ]
        omega
    · intro k hk
      cases k with
      | zero => simpa using le_trans hx2 hacc
      | succ m =>
        simp only [List.getD_cons_succ]
        exact hall m (by simpa using hk)

theorem npArgmax_isMax (x : ℚ) (xs : List ℚ) :
    npArgmax (x :: xs) < (x :: xs).length ∧
    ∀ c, c < (x :: xs).length →
      (x :: xs).getD c 0 ≤ (x :: xs).getD (npArgmax (x :: xs)) 0 := by
  obtain ⟨hpos, hacc, hall⟩ := npArgmaxAux_spec xs 1 (0, x)
  have hval : (x :: xs).getD (npArgmax (x :: xs)) 0 = (npArgmaxPair (x :: xs)).2 := by
    simp only [npArgmax, npArgmaxPair]
    rcases hpos with heq | ⟨k, hk, heq⟩
    · rw [heq]
      rfl
    · rw [heq]
      have : 1 + k = k + 1 := by omega
      simp [this, List.getD_cons_succ]
  constructor
  · simp only [npArgmax, npArgmaxPair]
    rcases hpos with heq | ⟨k, hk, heq⟩
    · rw [heq]
      simp
    · rw [heq]
      simp
      omega
  · intro c hc
    rw [hval]
    cases c with
    | zero => simpa using hacc
    | succ m =>
      simp only [List.getD_cons_succ, npArgmaxPair]
      exact hall m (by simpa using hc)

theorem getD_lt_eq_get {α : Type} :
    ∀ (l : List α) (n : Nat) (d : α) (h : n < l.length), l.getD n d = l.get ⟨n, h⟩ := by
  intro l
  induction l with
  | nil => intro n d h; exact absurd h (by simp)
  | cons a l ih =>
    intro n d h
    cases n with
    | zero => rfl
    | succ m => exact ih m d (by simpa using h)

theorem getD_range_map (f : Nat → ℚ) (n i : Nat) (d : ℚ) (h : i < n) :
    ((List.range n).map f).getD i d = f i := by
  rw [getD_map_lt f (List.range n) i d (by simpa using h)]
  congr 1
  simp [List.get_eq_getElem]

theorem sum_zipWith_eq_countP :
    ∀ (xs ys : List Nat),
    (List.zipWith (fun a b => if a = b then (1 : ℚ) else 0) xs ys).sum =
      ((List.zip xs ys).countP (fun z => decide (z.1 = z.2)) : ℚ) := by
  intro xs
  induction xs with
  | nil => intro ys; simp
  | cons x xs ih =>
    intro ys
    cases ys with
    | nil => simp
    | cons y ys =>
      simp only [List.zipWith_cons_cons, List.sum_cons, List.zip_cons_cons, List.countP_cons, ih]
      by_cases hxy : x = y
      · simp [hxy, add_comm]
      · simp [hxy]

/-- Claim C4: for per-member predictions of shape `(B, N, C)` the aggregated
class is `np.argmax(np.mean(predictions, axis=1), axis=-1)`, which attains the
maximum of the member-mean over all `C` classes, and the reported accuracy
`np.mean(preds == targets)` equals the fraction of the `B` examples whose
aggregated class equals the stored target. -/
theorem ensemble_aggregation (p : List (List (List ℚ))) (targets : List Nat) (B N C : Nat)
    (hB : p.length = B) (ht : targets.length = B) (hN : 0 < N) (hC : 0 < C)
    (hshape : ∀ rows ∈ p, rows.length = N ∧ ∀ r ∈ rows, r.length = C) :
    aggregationSpec p targets B C := by
  have hlenpred : (ensemble_predicted_class p).length = p.length := by
    simp [ensemble_predicted_class, npMeanAxis1]
  constructor
  · intro b hb
    have hbp : b < p.length := by omega
    have hrows_mem : p.getD b [] ∈ p := by
      rw [getD_lt_eq_get p b [] hbp]
      exact List.get_mem p b hbp
    obtain ⟨hrlen, hcols⟩ := hshape _ hrows_mem
    have hne : p.getD b [] ≠ [] := by
      intro hnil
      rw [hnil] at hrlen
      simp at hrlen
      omega
    obtain ⟨r0, rest, hcons⟩ := List.exists_cons_of_ne_nil hne
    have hhead : ((p.getD b []).headD []).length = C := by
      rw [hcons]
      simp only [List.headD_cons]
      exact hcols r0 (by rw [hcons]; exact List.mem_cons_self r0 rest)
    have hgetb : p.getD b [] = p.get ⟨b, hbp⟩ := getD_lt_eq_get p b [] hbp
    have hpred : (ensemble_predicted_class p).getD b 0 =
        npArgmax ((List.range C).map (fun c => npColMean (p.getD b []) c)) := by
      simp only [ensemble_predicted_class, npMeanAxis1, List.map_map]
      rw [getD_map_lt _ p b 0 hbp]
      simp only [Function.comp]
      rw [← hgetb, hhead]
    have hLlen : ((List.range C).map (fun c => npColMean (p.getD b []) c)).length = C := by
      simp
    have hLne : ((List.range C).map (fun c => npColMean (p.getD b []) c)) ≠ [] := by
      intro h0
      rw [h0] at hLlen
      simp at hLlen
      omega
    obtain ⟨l0, ls, hL⟩ := List.exists_cons_of_ne_nil hLne
    have hmax := npArgmax_isMax l0 ls
    rw [← hL] at hmax
    obtain ⟨hlt, hboundall⟩ := hmax
    rw [hLlen] at hlt
    constructor
    · rw [hpred]
      exact hlt
    · intro c hc
      rw [hpred]
      have h1 := getD_range_map (fun c => npColMean (p.getD b []) c) C c 0 hc
      have h2 := getD_range_map (fun c => npColMean (p.getD b []) c) C
        (npArgmax ((List.range C).map (fun c => npColMean (p.getD b []) c))) 0 hlt
      have h3 := hboundall c (by rw [hLlen]; exact hc)
      rw [h1, h2] at h3
      exact h3
  · simp only [aggregationSpec, ensemble_accuracy, npMeanEqual]
    rw [sum_zipWith_eq_countP, hlenpred, hB]

/-- Witness for claim C4 at a concrete `(2, 2, 2)` prediction array. -/
theorem ensemble_aggregation_witness :
    aggregationSpec [[[1, 2], [3, 0]], [[0, 1], [1, 0]]] [1, 0] 2 2 :=
  ensemble_aggregation [[[1, 2], [3, 0]], [[0, 1], [1, 0]]] [1, 0] 2 2 2
    (by decide) (by decide) (by decide) (by decide) (by decide)

/-- Claim C10: each fold of `UCIData.datasplit_generator` standardizes both
its training split and its test split with the `get_stats` statistics of that
fold's training split only (x and y separately); the statistics, and hence the
transformation applied to test data, are fully determined by the fold's
training rows: replacing the dataset by one agreeing on the training rows
leaves them unchanged. -/
theorem datasplit_uses_train_stats (data data2 : List (List ℝ)) (input_dim : Nat)
    (tr te te2 : List Nat) (h : selectRows data2 tr = selectRows data tr) :
    foldUsesTrainStats data data2 input_dim tr te te2 := by
  have hstats : trainStats data2 input_dim tr = trainStats data input_dim tr := by
    simp only [trainStats, h]
  refine ⟨rfl, rfl, rfl, rfl, hstats, ?_⟩
  show (datasplit_fold data2 input_dim tr te2).2.1 =
    standardize (trainStats data input_dim tr).1.1 (trainStats data input_dim tr).1.2
      (xPart input_dim (selectRows data2 te2))
  simp only [datasplit_fold, trainStats, h]

/-- Witness for claim C10 at two concrete datasets sharing training rows. -/
theorem datasplit_witness :
    foldUsesTrainStats [[1, 2], [3, 4], [5, 6]] [[1, 2], [3, 4], [7, 8]] 1 [0, 1] [2] [2] :=
  datasplit_uses_train_stats [[1, 2], [3, 4], [5, 6]] [[1, 2], [3, 4], [7, 8]] 1
    [0, 1] [2] [2] (by rfl)

/-- Claim C3: evaluation of `gaussian_neg_log_likelihood_diag` at the failing
input `B = 1, N = 2, D = 1`, `sigma_sq = [[1]]`, `target = [[[0], [0]]]`.
The code returns `-1` at both `mu = [[0]]` and `mu = [[2]]` (its centered
sample variance makes it independent of `mu`, and it has the term
`-(N/2) * prod(1/sigma_sq)` where the Gaussian formula has the log-determinant
`(N/2) * sum(log sigma_sq)`), while the exact Gaussian negative log-likelihood
(`gaussian_neg_log_likelihood`, the sibling the file documents both functions
as computing) differs by `2` between the two inputs; hence no additive constant
independent of `mu` and `sigma_sq` reconciles the code with the published
diagonal-covariance formula. -/
theorem gaussian_diag_nll_deviates :
    gaussian_neg_log_likelihood_diag [[0]] [[1]] [[[0], [0]]] = -1 ∧
    gaussian_neg_log_likelihood_diag [[2]] [[1]] [[[0], [0]]] = -1 ∧
    gaussian_neg_log_likelihood [[2]] [[1]] [[[0], [0]]] -
      gaussian_neg_log_likelihood [[0]] [[1]] [[[0], [0]]] = 2 := by
  refine ⟨?_, ?_, ?_⟩
  · simp [gaussian_neg_log_likelihood_diag, torchVarUnbiased, List.range_succ]
  · simp [gaussian_neg_log_likelihood_diag, torchVarUnbiased, List.range_succ]
  · simp [gaussian_neg_log_likelihood, diagMvnLogProb]
    ring_nf

/-- Witness for the amended layout theorem of claim C1 at `train=True`. -/
theorem h5_layout_spec_witness :
    cifar10ReadGroup true ∈ ensemblePredictionsWrites.map Prod.fst :=
  h5_layout_spec.2.2.2.2.1 true

/-- Witness for the amended theorem of claim C2 at a concrete non-member value. -/
theorem add_member_always_appends_witness :
    add_member (fun _ : Nat => false) { members := [], size := 0, output_size := 5 } 3 =
      Except.ok { members := [3], size := 1, output_size := 5 } :=
  add_member_always_appends (fun _ : Nat => false)
    { members := [], size := 0, output_size := 5 } 3

/-- Witness for claim C6 at a concrete two-member ensemble. -/
theorem ensemble_train_sequential_witness :
    (ensemble_train (fun (m : Nat) (s : Nat) => s + m)
        { members := [4, 5], size := 2, output_size := 1 } 0).1 =
      [4, 5].foldl (fun st m => st + m) 0 ∧
    ((ensemble_train (fun (m : Nat) (s : Nat) => s + m)
        { members := [4, 5], size := 2, output_size := 1 } 0).2.filterMap
      (fun ev => match ev with
        | TrainEvent.trainCall m => some m
        | TrainEvent.logMsg _ _ => none)) = [4, 5] :=
  ⟨(ensemble_train_sequential (fun (m : Nat) (s : Nat) => s + m)
      { members := [4, 5], size := 2, output_size := 1 } 0).1,
   (ensemble_train_sequential (fun (m : Nat) (s : Nat) => s + m)
      { members := [4, 5], size := 2, output_size := 1 } 0).2.2⟩
